import Mathlib

/-!
Verification of the data-modeling core of the `elefren` repository: JSON wire
values, the typed identifier kit, conversion shims, the `AccountActionRequest`
builder (`src/requests/admin/account.rs`) and the `Status` entity family
(`src/entities/status.rs`).

Rust structures are embedded as Lean structures translation-faithfully: serde's
derived `Serialize`/`Deserialize` semantics become explicit `serialize`/
`deserialize` functions over a JSON tree, machine integers (`u64`) become `Nat`
with explicit range conditions where they matter, fallible decoding returns
`Except DecodeError`, and the builder's panicking `build` is modelled as a
total function into an outcome type with an explicit panic alternative.
-/

/-- JSON tree, mirroring `serde_json::Value` restricted to the shapes this
repository exchanges (all numbers on these wires are integers). Objects keep
their fields in writing order. -/
inductive Json where
  | null
  | bool (b : Bool)
  | num (n : Int)
  | str (s : String)
  | arr (xs : List Json)
  | obj (kvs : List (String × Json))

/-- Decode failure, mirroring the error kinds of §7 of the design: wrong JSON
shape, a token outside a closed enumeration, a required key that is absent, or
a timestamp that is not in the fixed format. -/
inductive DecodeError where
  | wrongShape (expected : String)
  | unknownVariant (token : String)
  | missingField (key : String)
  | timestampFormat (input : String)
deriving DecidableEq

/-- Builder failure at finalize: a required field was never supplied
(`derive_builder`'s `UninitializedFieldError`, carrying the field name). -/
inductive BuildError where
  | missingRequired (field : String)
deriving DecidableEq

/-- Equality of fallible results is decidable whenever both components are;
lets concrete decode outcomes be checked by evaluation. -/
instance {ε α : Type} [DecidableEq ε] [DecidableEq α] : DecidableEq (Except ε α) := fun x y =>
  match x, y with
  | .ok a, .ok b =>
      if h : a = b then isTrue (by rw [h]) else isFalse (by simp [h])
  | .error a, .error b =>
      if h : a = b then isTrue (by rw [h]) else isFalse (by simp [h])
  | .ok _, .error _ => isFalse (by simp)
  | .error _, .ok _ => isFalse (by simp)

/-- First value stored under a key in a JSON object, the lookup serde's derived
`Deserialize` performs for each struct field. -/
def findField : List (String × Json) → String → Option Json
  | [], _ => none
  | (k, v) :: rest, key => if k = key then some v else findField rest key

/-- Serde's escaping of one character inside a JSON string literal: quote and
backslash are escaped, control characters use their short escapes or a
`\u00XX` form, everything else passes through. -/
def escapeChar (c : Char) : List Char :=
  if c = '"' then ['\\', '"']
  else if c = '\\' then ['\\', '\\']
  else if c = '\n' then ['\\', 'n']
  else if c = '\r' then ['\\', 'r']
  else if c = '\t' then ['\\', 't']
  else if c.toNat = 8 then ['\\', 'b']
  else if c.toNat = 12 then ['\\', 'f']
  else if c.toNat < 32 then
    ['\\', 'u', '0', '0',
     (if c.toNat / 16 = 1 then '1' else '0'),
     "0123456789abcdef".toList.getD (c.toNat % 16) '0']
  else [c]

/-- Render a string as a JSON string literal, as `serde_json::to_string`
does. -/
def renderString (s : String) : String :=
  "\"" ++ String.join (s.data.map (fun c => String.mk (escapeChar c))) ++ "\""

mutual

/-- Compact rendering of a JSON tree, as `serde_json::to_string` produces it:
no whitespace, fields in the order the object holds them. -/
def Json.render : Json → String
  | .null => "null"
  | .bool true => "true"
  | .bool false => "false"
  | .num n => n.repr
  | .str s => renderString s
  | .arr xs => "[" ++ renderElems xs ++ "]"
  | .obj kvs => "\x7b" ++ renderMembers kvs ++ "\x7d"

/-- Comma-separated rendering of array elements. -/
def renderElems : List Json → String
  | [] => ""
  | [x] => x.render
  | x :: rest => x.render ++ "," ++ renderElems rest

/-- Comma-separated rendering of object members. -/
def renderMembers : List (String × Json) → String
  | [] => ""
  | [(k, v)] => renderString k ++ ":" ++ v.render
  | (k, v) :: rest => renderString k ++ ":" ++ v.render ++ "," ++ renderMembers rest

end

/-! ## Identifier Kit

Modelled from the spec: `src/entities/src/lib.rs` re-exports a `pub mod ids`
of type-safe ID values whose definition file is not among the sources. Per
§4.1 the kit is a newtype wrapper over an opaque string, parameterized by a
phantom resource-kind tag, with kind-aware equality, infallible construction
from a raw string, tolerant decode (JSON string or JSON number, normalized to
the string form) and encode always re-emitting a JSON string. -/

/-- Resource kinds distinguished by the identifier kit (§2: account, status,
report, filter, list, marker, push subscription, warning preset, custom
emoji, and the further per-resource categories). -/
inductive IdKind where
  | account
  | status
  | report
  | filter
  | list
  | marker
  | pushSubscription
  | warningPreset
  | customEmoji
  | attachment
  | relationship
  | subscription
deriving DecidableEq

/-- Modelled from the spec: typed identifier wrapping a single opaque string,
parameterized by a phantom resource kind (§3, §4.1). -/
structure TypedId (k : IdKind) where
  raw : String
deriving DecidableEq

/-- Modelled from the spec: construction from a raw string; it never fails
(§4.1). -/
def TypedId.new (k : IdKind) (raw : String) : TypedId k := ⟨raw⟩

/-- Modelled from the spec: the kind-aware equality operator; two identifiers
compare equal exactly when they are of the same resource kind and hold the
same underlying string (§3, §8). -/
def TypedId.keq {k₁ k₂ : IdKind} (a : TypedId k₁) (b : TypedId k₂) : Bool :=
  decide (k₁ = k₂) && a.raw == b.raw

/-- Modelled from the spec: encode always re-emits a JSON string (§4.1). -/
def TypedId.serialize {k : IdKind} (id : TypedId k) : Json := Json.str id.raw

/-- Modelled from the spec: tolerant decode; a JSON string is taken as is, a
JSON number is normalized to its decimal string form, anything else is a
decode error (§4.1). -/
def TypedId.deserialize (k : IdKind) : Json → Except DecodeError (TypedId k)
  | .str s => .ok ⟨s⟩
  | .num n => .ok ⟨n.repr⟩
  | _ => .error (.wrongShape "string or number")

/-- The report identifier used by `AccountActionRequest.report_id`. -/
abbrev ReportId := TypedId IdKind.report

/-- The warning-preset identifier used by
`AccountActionRequest.warning_preset_id`. -/
abbrev WarningPresetId := TypedId IdKind.warningPreset

/-- Modelled from the spec: the tolerant-scalar conversion shim for string
fields (§4.2): decode accepts a JSON string or a JSON number token and
normalizes to the string form. -/
def tolerantStringDecode : Json → Except DecodeError String
  | .str s => .ok s
  | .num n => .ok n.repr
  | _ => .error (.wrongShape "string or number")

/-- Modelled from the spec: the tolerant-scalar shim always re-emits a JSON
string on encode (§4.2). -/
def tolerantStringEncode (s : String) : Json := Json.str s

/-! ## `AccountAction` (src/requests/admin/account.rs, lines 58-73) -/

/-- Action to be performed on the account
(`#[serde(rename_all = "snake_case")]`). -/
inductive AccountAction where
  | none
  | sensitive
  | disable
  | silence
  | suspend
deriving DecidableEq

/-- The lower-snake-case wire token of each variant, as serde's
`rename_all = "snake_case"` derives it. -/
def AccountAction.toWire : AccountAction → String
  | .none => "none"
  | .sensitive => "sensitive"
  | .disable => "disable"
  | .silence => "silence"
  | .suspend => "suspend"

/-- Derived `Serialize`: each unit variant serializes to its wire token as a
JSON string. -/
def AccountAction.serialize (a : AccountAction) : Json := Json.str a.toWire

/-- Decode one wire token. Modelled from the spec: the source derives only
`Serialize` for `AccountAction`; §4.4 specifies decode as the exact inverse
mapping of encode, and §3 makes an unrecognized token a hard decode
failure. -/
def AccountAction.ofWire (s : String) : Except DecodeError AccountAction :=
  if s = "none" then .ok .none
  else if s = "sensitive" then .ok .sensitive
  else if s = "disable" then .ok .disable
  else if s = "silence" then .ok .silence
  else if s = "suspend" then .ok .suspend
  else .error (.unknownVariant s)

/-- Modelled from the spec: decode of `AccountAction` from a JSON value; only
a JSON string holding one of the five wire tokens is accepted (§3, §4.4). -/
def AccountAction.deserialize : Json → Except DecodeError AccountAction
  | .str s => AccountAction.ofWire s
  | _ => .error (.wrongShape "string")

/-! ## `AccountActionRequest` and its builder
(src/requests/admin/account.rs, lines 14-56) -/

/-- Form used to perform an admin action on an account
(`#[skip_serializing_none] #[derive(..., Serialize, Builder)]`). The `action`
field is serialized under the wire key `type`. -/
structure AccountActionRequest where
  action : AccountAction
  report_id : Option ReportId
  warning_preset_id : Option WarningPresetId
  text : Option String
  send_email_notification : Option Bool
deriving DecidableEq

/-- The object entry an optional field contributes under
`#[skip_serializing_none]`: nothing when the field is `None`, one key-value
pair when it is `Some`. -/
def optEntry (key : String) (enc : α → Json) : Option α → List (String × Json)
  | Option.none => []
  | some a => [(key, enc a)]

/-- The serialized members of an `AccountActionRequest`, in declaration order,
with `action` renamed to `type` and `None` optionals omitted entirely. -/
def AccountActionRequest.serializeFields (r : AccountActionRequest) : List (String × Json) :=
  ("type", r.action.serialize) ::
    (optEntry "report_id" TypedId.serialize r.report_id ++
     optEntry "warning_preset_id" TypedId.serialize r.warning_preset_id ++
     optEntry "text" Json.str r.text ++
     optEntry "send_email_notification" Json.bool r.send_email_notification)

/-- Derived `Serialize` of `AccountActionRequest`. -/
def AccountActionRequest.serialize (r : AccountActionRequest) : Json :=
  Json.obj r.serializeFields

/-- The `derive_builder`-generated builder: every field of the target struct
is held as an `Option` of its type, `None` meaning "never set". -/
structure AccountActionRequestBuilder where
  action : Option AccountAction
  report_id : Option (Option ReportId)
  warning_preset_id : Option (Option WarningPresetId)
  text : Option (Option String)
  send_email_notification : Option (Option Bool)
deriving DecidableEq

/-- `AccountActionRequestBuilder::create_empty()`: no field set. -/
def AccountActionRequestBuilder.createEmpty : AccountActionRequestBuilder :=
  ⟨Option.none, Option.none, Option.none, Option.none, Option.none⟩

/-- The generated `action` setter (named `set_action` here because the Lean
projection of the builder field already carries the source name). -/
def AccountActionRequestBuilder.set_action
    (b : AccountActionRequestBuilder) (a : AccountAction) : AccountActionRequestBuilder :=
  { b with action := some a }

/-- The generated `report_id` setter (`setter(into, strip_option)`). -/
def AccountActionRequestBuilder.set_report_id
    (b : AccountActionRequestBuilder) (v : ReportId) : AccountActionRequestBuilder :=
  { b with report_id := some (some v) }

/-- The generated `warning_preset_id` setter. -/
def AccountActionRequestBuilder.set_warning_preset_id
    (b : AccountActionRequestBuilder) (v : WarningPresetId) : AccountActionRequestBuilder :=
  { b with warning_preset_id := some (some v) }

/-- The generated `text` setter. -/
def AccountActionRequestBuilder.set_text
    (b : AccountActionRequestBuilder) (v : String) : AccountActionRequestBuilder :=
  { b with text := some (some v) }

/-- The generated `send_email_notification` setter. -/
def AccountActionRequestBuilder.set_send_email_notification
    (b : AccountActionRequestBuilder) (v : Bool) : AccountActionRequestBuilder :=
  { b with send_email_notification := some (some v) }

/-- `AccountActionRequest::builder(action)`: the only public path to a
builder, seeding the required `action` field. -/
def AccountActionRequest.builder (a : AccountAction) : AccountActionRequestBuilder :=
  AccountActionRequestBuilder.createEmpty.set_action a

/-- The generated private `try_build`: fails on the unset required field
(`action`); `#[builder(default)]` fields fall back to `None`. -/
def AccountActionRequestBuilder.tryBuild
    (b : AccountActionRequestBuilder) : Except BuildError AccountActionRequest :=
  match b.action with
  | Option.none => .error (.missingRequired "action")
  | some a =>
      .ok ⟨a, b.report_id.getD Option.none, b.warning_preset_id.getD Option.none,
           b.text.getD Option.none, b.send_email_notification.getD Option.none⟩

/-- Outcome of the public `build`: either the finished request or a process
abort. A Rust panic is modelled as the explicit `panicked` alternative so the
control flow of `build` stays observable. -/
inductive BuildOutcome where
  | ok (r : AccountActionRequest)
  | panicked (msg : String)
deriving DecidableEq

/-- The public `build` of the source: `self.try_build().expect("One or more
required fields are missing!")` — a success is returned, a builder error
aborts the process with that message. -/
def AccountActionRequestBuilder.build (b : AccountActionRequestBuilder) : BuildOutcome :=
  match b.tryBuild with
  | .ok r => .ok r
  | .error _ => .panicked "One or more required fields are missing!"

/-- The rendered JSON text of a successful build outcome, `none` when the
build aborted; the composition exercised by the source's
`test_serialize_action_request`. -/
def BuildOutcome.serialized : BuildOutcome → Option String
  | .ok r => some (Json.render r.serialize)
  | .panicked _ => none

/-- One call to one of the builder's optional-field setters. -/
inductive SetterCall where
  | report_id (v : ReportId)
  | warning_preset_id (v : WarningPresetId)
  | text (v : String)
  | send_email_notification (v : Bool)

/-- Apply one optional-field setter call to a builder. -/
def applySetter (b : AccountActionRequestBuilder) : SetterCall → AccountActionRequestBuilder
  | .report_id v => b.set_report_id v
  | .warning_preset_id v => b.set_warning_preset_id v
  | .text v => b.set_text v
  | .send_email_notification v => b.set_send_email_notification v

/-- Apply a sequence of optional-field setter calls, left to right. -/
def applySetters (b : AccountActionRequestBuilder) (ops : List SetterCall) :
    AccountActionRequestBuilder :=
  ops.foldl applySetter b

/-! ## Fixed-format timestamp shim

`Status.created_at` carries `#[serde(with = "iso8601")]` (src/entities/
status.rs, lines 30-32). The shim itself lives in the external `time` crate;
its contract is §4.2/§6 of the spec: one single fixed standard textual
representation holding date, time, and UTC offset, with decode failing with a
format error on any other textual shape. The model below realises that
contract at second precision over the canonical
`YYYY-MM-DDThh:mm:ss(Z|±hh:mm)` shape. -/

/-- A point in time as the wire carries it: broken-down date, time and UTC
offset. The `z` offset form and an explicit zero offset are kept apart so
that parsing and formatting are exact inverses. -/
inductive UtcOffset where
  | z
  | numeric (neg : Bool) (oh : Nat) (om : Nat)
deriving DecidableEq

/-- Broken-down date, time-of-day and UTC offset of a timestamp. -/
structure OffsetDateTime where
  year : Nat
  month : Nat
  day : Nat
  hour : Nat
  minute : Nat
  second : Nat
  offset : UtcOffset
deriving DecidableEq

/-- Leap-year rule of the proleptic Gregorian calendar. -/
def isLeapYear (y : Nat) : Bool :=
  (y % 4 == 0 && y % 100 != 0) || y % 400 == 0

/-- Number of days of a month in a year. -/
def daysInMonth (y m : Nat) : Nat :=
  if m = 2 then (if isLeapYear y then 29 else 28)
  else if m = 4 ∨ m = 6 ∨ m = 9 ∨ m = 11 then 30
  else 31

/-- Range validity of a UTC offset. -/
def validOffset : UtcOffset → Bool
  | .z => true
  | .numeric _ oh om => decide (oh ≤ 23 ∧ om ≤ 59)

/-- Range validity of a broken-down timestamp: the invariant every value of
the source's timestamp type holds by construction. -/
def validODT (t : OffsetDateTime) : Bool :=
  decide (t.year ≤ 9999 ∧ 1 ≤ t.month ∧ t.month ≤ 12 ∧ 1 ≤ t.day ∧
    t.day ≤ daysInMonth t.year t.month ∧ t.hour ≤ 23 ∧ t.minute ≤ 59 ∧
    t.second ≤ 59) && validOffset t.offset

/-- The decimal digit character of `n` (for `n < 10`). -/
def digitChar : Nat → Char
  | 9 => '9'
  | 8 => '8'
  | 7 => '7'
  | 6 => '6'
  | 5 => '5'
  | 4 => '4'
  | 3 => '3'
  | 2 => '2'
  | 1 => '1'
  | 0 => '0'
  | _ => '?'

/-- The decimal value of a digit character, `none` on anything else. -/
def toDigit : Char → Option Nat
  | '9' => some 9
  | '8' => some 8
  | '7' => some 7
  | '6' => some 6
  | '5' => some 5
  | '4' => some 4
  | '3' => some 3
  | '2' => some 2
  | '1' => some 1
  | '0' => some 0
  | _ => none

/-- Two-digit zero-padded decimal rendering. -/
def pad2 (n : Nat) : List Char :=
  [digitChar (n / 10 % 10), digitChar (n % 10)]

/-- Four-digit zero-padded decimal rendering. -/
def pad4 (n : Nat) : List Char :=
  [digitChar (n / 1000 % 10), digitChar (n / 100 % 10),
   digitChar (n / 10 % 10), digitChar (n % 10)]

/-- Numeric value of two digit characters. -/
def readD2 (a b : Char) : Option Nat := do
  let x ← toDigit a
  let y ← toDigit b
  pure (x * 10 + y)

/-- Numeric value of four digit characters. -/
def readD4 (a b c d : Char) : Option Nat := do
  let x1 ← toDigit a
  let x2 ← toDigit b
  let x3 ← toDigit c
  let x4 ← toDigit d
  pure (x1 * 1000 + x2 * 100 + x3 * 10 + x4)

/-- Formatted UTC offset: `Z` for the zulu form, `±hh:mm` otherwise. -/
def formatOffset : UtcOffset → List Char
  | .z => ['Z']
  | .numeric neg oh om => (if neg then '-' else '+') :: (pad2 oh ++ ':' :: pad2 om)

/-- The characters of the fixed wire form of a timestamp:
`YYYY-MM-DDThh:mm:ss` followed by the offset. -/
def formatIso8601Chars (t : OffsetDateTime) : List Char :=
  pad4 t.year ++ '-' :: pad2 t.month ++ '-' :: pad2 t.day ++
  'T' :: pad2 t.hour ++ ':' :: pad2 t.minute ++ ':' :: pad2 t.second ++
  formatOffset t.offset

/-- The fixed wire form of a timestamp as a string. -/
def formatIso8601 (t : OffsetDateTime) : String :=
  String.mk (formatIso8601Chars t)

/-- Sign character of a numeric offset: `+` is non-negative, `-` negative,
anything else is not an offset sign. -/
def signOf (c : Char) : Option Bool :=
  if c = '+' then some false else if c = '-' then some true else Option.none

/-- Parse a UTC offset tail: exactly `Z` or `±hh:mm` within range. -/
def parseOffsetChars : List Char → Option UtcOffset
  | ['Z'] => some UtcOffset.z
  | [sg, a, b, ':', c, d] => do
      let neg ← signOf sg
      let oh ← readD2 a b
      let om ← readD2 c d
      if oh ≤ 23 ∧ om ≤ 59 then some (UtcOffset.numeric neg oh om) else Option.none
  | _ => Option.none

/-- Parse the fixed timestamp wire form; any other textual shape, and any
out-of-range component, yields `none`. -/
def parseIso8601Chars : List Char → Option OffsetDateTime
  | y1 :: y2 :: y3 :: y4 :: '-' :: m1 :: m2 :: '-' :: d1 :: d2 :: 'T' ::
    h1 :: h2 :: ':' :: mi1 :: mi2 :: ':' :: s1 :: s2 :: rest => do
      let y ← readD4 y1 y2 y3 y4
      let mo ← readD2 m1 m2
      let dy ← readD2 d1 d2
      let hh ← readD2 h1 h2
      let mi ← readD2 mi1 mi2
      let ss ← readD2 s1 s2
      let off ← parseOffsetChars rest
      if 1 ≤ mo ∧ mo ≤ 12 ∧ 1 ≤ dy ∧ dy ≤ daysInMonth y mo ∧ hh ≤ 23 ∧
          mi ≤ 59 ∧ ss ≤ 59 then
        some ⟨y, mo, dy, hh, mi, ss, off⟩
      else Option.none
  | _ => Option.none

/-- Parse the fixed timestamp wire form from a string. -/
def parseIso8601 (s : String) : Option OffsetDateTime :=
  parseIso8601Chars s.data

/-- Decode of the `created_at` field: a JSON string in the fixed format, any
other textual shape failing with a format error, any non-string failing with
a shape error. -/
def decodeCreatedAt : Json → Except DecodeError OffsetDateTime
  | .str s =>
      match parseIso8601 s with
      | some t => .ok t
      | Option.none => .error (.timestampFormat s)
  | _ => .error (.wrongShape "string")

/-! ## Field-level decode helpers shared by the derived `Deserialize`
implementations. -/

/-- Decode of a JSON string into `String`. -/
def decodeString : Json → Except DecodeError String
  | .str s => .ok s
  | _ => .error (.wrongShape "string")

/-- Decode of a JSON boolean into `Bool`. -/
def decodeBool : Json → Except DecodeError Bool
  | .bool b => .ok b
  | _ => .error (.wrongShape "boolean")

/-- Encode of a `u64` count: a JSON integer. -/
def encodeU64 (n : Nat) : Json := Json.num (n : Int)

/-- Decode of a `u64` count: a JSON integer within the `u64` range. -/
def decodeU64 : Json → Except DecodeError Nat
  | .num i => if 0 ≤ i ∧ i < 18446744073709551616 then .ok i.toNat
              else .error (.wrongShape "u64")
  | _ => .error (.wrongShape "u64")

/-- Value under a required key, a missing-field error when the key is
absent. -/
def reqField (kvs : List (String × Json)) (key : String) : Except DecodeError Json :=
  match findField kvs key with
  | Option.none => .error (.missingField key)
  | some j => .ok j

/-- Look up a required key and decode its value. -/
def getField (dec : Json → Except DecodeError α) (kvs : List (String × Json))
    (key : String) : Except DecodeError α :=
  (reqField kvs key).bind dec

/-- Decode of an `Option` field value: an explicit `null` is no value, any
other value goes through the component decoder. -/
def optDecodeVal (dec : Json → Except DecodeError α) : Json → Except DecodeError (Option α)
  | .null => .ok Option.none
  | j => (dec j).map some

/-- Decode of an `Option` field from an object: an absent key and an explicit
`null` both decode to no value, as serde's derive does for `Option` fields. -/
def decodeOptKey (dec : Json → Except DecodeError α) (kvs : List (String × Json))
    (key : String) : Except DecodeError (Option α) :=
  match findField kvs key with
  | Option.none => .ok Option.none
  | some j => optDecodeVal dec j

/-- Encode of an `Option` field value where the containing struct does not
skip absent fields: `None` is an explicit `null`. -/
def encodeOptField (enc : α → Json) : Option α → Json
  | Option.none => Json.null
  | some a => enc a

/-- Encode of a `Vec` field: the JSON array of encoded elements. -/
def encodeList (enc : α → Json) (xs : List α) : Json := Json.arr (xs.map enc)

/-- Decode every element of a JSON array in order. -/
def decodeElems (dec : Json → Except DecodeError α) : List Json → Except DecodeError (List α)
  | [] => .ok []
  | x :: rest => do
      let a ← dec x
      let as ← decodeElems dec rest
      .ok (a :: as)

/-- Decode of a `Vec` field: a JSON array, each element through the component
decoder. -/
def decodeList (dec : Json → Except DecodeError α) : Json → Except DecodeError (List α)
  | .arr xs => decodeElems dec xs
  | _ => .error (.wrongShape "array")

/-! ## Entities of src/entities/status.rs

`Status` references four types declared in modules that are not among the
sources: `Account` (entities/account.rs), `Card` (entities/card.rs),
`Attachment` (entities/attachment.rs) and `Visibility` (status_builder /
entities/visibility.rs). Those are modelled from the spec (§2, §8): mechanical
per-resource structures whose fields consume the Identifier Kit and the
Conversion Shims, and a closed visibility enumeration under the lower-case
wire naming convention. -/

/-- Modelled from the spec: the status-visibility closed enumeration (§2,
§4.4), variants carrying the upstream federated-API vocabulary. `restricted`
stands for the source's followers-only variant, whose name Lean reserves as a
keyword. -/
inductive Visibility where
  | everyone
  | unlisted
  | restricted
  | direct
deriving DecidableEq

/-- Wire token of each visibility variant. -/
def Visibility.toWire : Visibility → String
  | .everyone => "public"
  | .unlisted => "unlisted"
  | .restricted => "private"
  | .direct => "direct"

/-- Encode of `Visibility`: its wire token as a JSON string. -/
def Visibility.serialize (v : Visibility) : Json := Json.str v.toWire

/-- Decode of `Visibility`: exactly the four wire tokens. -/
def Visibility.deserialize : Json → Except DecodeError Visibility
  | .str s =>
      if s = "public" then .ok .everyone
      else if s = "unlisted" then .ok .unlisted
      else if s = "private" then .ok .restricted
      else if s = "direct" then .ok .direct
      else .error (.unknownVariant s)
  | _ => .error (.wrongShape "string")

/-- Modelled from the spec: the account entity referenced by
`Status::account`, reduced to representative fields consuming the Identifier
Kit (the spec excludes the full mechanical field list, §1). -/
structure Account where
  id : TypedId IdKind.account
  username : String
  acct : String
deriving DecidableEq

/-- Encode of `Account`. -/
def encodeAccount (a : Account) : Json :=
  Json.obj [("id", a.id.serialize), ("username", Json.str a.username),
            ("acct", Json.str a.acct)]

/-- Decode of `Account`. -/
def decodeAccount (j : Json) : Except DecodeError Account :=
  match j with
  | .obj kvs => do
      let id ← getField (TypedId.deserialize IdKind.account) kvs "id"
      let username ← getField decodeString kvs "username"
      let acct ← getField decodeString kvs "acct"
      .ok ⟨id, username, acct⟩
  | _ => .error (.wrongShape "object")

/-- Modelled from the spec: the card entity referenced by `Status::card`,
reduced to representative fields (§1). -/
structure Card where
  url : String
  title : String
  description : String
deriving DecidableEq

/-- Encode of `Card`. -/
def encodeCard (c : Card) : Json :=
  Json.obj [("url", Json.str c.url), ("title", Json.str c.title),
            ("description", Json.str c.description)]

/-- Decode of `Card`. -/
def decodeCard (j : Json) : Except DecodeError Card :=
  match j with
  | .obj kvs => do
      let url ← getField decodeString kvs "url"
      let title ← getField decodeString kvs "title"
      let description ← getField decodeString kvs "description"
      .ok ⟨url, title, description⟩
  | _ => .error (.wrongShape "object")

/-- Modelled from the spec: the attachment entity referenced by
`Status::media_attachments`, reduced to representative fields (§1). -/
structure Attachment where
  id : TypedId IdKind.attachment
  url : String
deriving DecidableEq

/-- Encode of `Attachment`. -/
def encodeAttachment (a : Attachment) : Json :=
  Json.obj [("id", a.id.serialize), ("url", Json.str a.url)]

/-- Decode of `Attachment`. -/
def decodeAttachment (j : Json) : Except DecodeError Attachment :=
  match j with
  | .obj kvs => do
      let id ← getField (TypedId.deserialize IdKind.attachment) kvs "id"
      let url ← getField decodeString kvs "url"
      .ok ⟨id, url⟩
  | _ => .error (.wrongShape "object")

/-- A mention of another user (src/entities/status.rs, lines 68-79). -/
structure Mention where
  url : String
  username : String
  acct : String
  id : String
deriving DecidableEq

/-- Derived `Serialize` of `Mention`. -/
def encodeMention (m : Mention) : Json :=
  Json.obj [("url", Json.str m.url), ("username", Json.str m.username),
            ("acct", Json.str m.acct), ("id", Json.str m.id)]

/-- Derived `Deserialize` of `Mention`. -/
def decodeMention (j : Json) : Except DecodeError Mention :=
  match j with
  | .obj kvs => do
      let url ← getField decodeString kvs "url"
      let username ← getField decodeString kvs "username"
      let acct ← getField decodeString kvs "acct"
      let id ← getField decodeString kvs "id"
      .ok ⟨url, username, acct, id⟩
  | _ => .error (.wrongShape "object")

/-- An emoji within text (src/entities/status.rs, lines 81-90). -/
structure Emoji where
  shortcode : String
  static_url : String
  url : String
deriving DecidableEq

/-- Derived `Serialize` of `Emoji`. -/
def encodeEmoji (e : Emoji) : Json :=
  Json.obj [("shortcode", Json.str e.shortcode), ("static_url", Json.str e.static_url),
            ("url", Json.str e.url)]

/-- Derived `Deserialize` of `Emoji`. -/
def decodeEmoji (j : Json) : Except DecodeError Emoji :=
  match j with
  | .obj kvs => do
      let shortcode ← getField decodeString kvs "shortcode"
      let static_url ← getField decodeString kvs "static_url"
      let url ← getField decodeString kvs "url"
      .ok ⟨shortcode, static_url, url⟩
  | _ => .error (.wrongShape "object")

/-- Application details (src/entities/status.rs, lines 111-118). -/
structure Application where
  name : String
  website : Option String
deriving DecidableEq

/-- Derived `Serialize` of `Application` (no skip attribute: `None` is an
explicit `null`). -/
def encodeApplication (a : Application) : Json :=
  Json.obj [("name", Json.str a.name), ("website", encodeOptField Json.str a.website)]

/-- Derived `Deserialize` of `Application`. -/
def decodeApplication (j : Json) : Except DecodeError Application :=
  match j with
  | .obj kvs => do
      let name ← getField decodeString kvs "name"
      let website ← decodeOptKey decodeString kvs "website"
      .ok ⟨name, website⟩
  | _ => .error (.wrongShape "object")

/-- Usage statistics for given days (src/entities/status.rs, lines 120-129). -/
structure TagHistory where
  day : String
  uses : String
  accounts : String
deriving DecidableEq

/-- Derived `Serialize` of `TagHistory`. -/
def encodeTagHistory (h : TagHistory) : Json :=
  Json.obj [("day", Json.str h.day), ("uses", Json.str h.uses),
            ("accounts", Json.str h.accounts)]

/-- Derived `Deserialize` of `TagHistory`. -/
def decodeTagHistory (j : Json) : Except DecodeError TagHistory :=
  match j with
  | .obj kvs => do
      let day ← getField decodeString kvs "day"
      let uses ← getField decodeString kvs "uses"
      let accounts ← getField decodeString kvs "accounts"
      .ok ⟨day, uses, accounts⟩
  | _ => .error (.wrongShape "object")

/-- Hashtags in the status (src/entities/status.rs, lines 92-109); `history`
carries `#[serde(default = "Vec::new")]`. -/
structure Tag where
  name : String
  url : String
  history : List TagHistory
  following : Option Bool
deriving DecidableEq

/-- Derived `Serialize` of `Tag`. -/
def encodeTag (t : Tag) : Json :=
  Json.obj [("name", Json.str t.name), ("url", Json.str t.url),
            ("history", encodeList encodeTagHistory t.history),
            ("following", encodeOptField Json.bool t.following)]

/-- Derived `Deserialize` of `Tag`: an absent `history` key falls back to the
empty list (`#[serde(default = "Vec::new")]`); a present key, `null`
included, goes through the list decoder. -/
def decodeTag (j : Json) : Except DecodeError Tag :=
  match j with
  | .obj kvs => do
      let name ← getField decodeString kvs "name"
      let url ← getField decodeString kvs "url"
      let history ←
        (match findField kvs "history" with
         | Option.none => Except.ok []
         | some hj => decodeList decodeTagHistory hj)
      let following ← decodeOptKey decodeBool kvs "following"
      .ok ⟨name, url, history, following⟩
  | _ => .error (.wrongShape "object")

/-- A status from the instance (src/entities/status.rs, lines 8-66), with its
25 fields in declaration order; `reblog` is the recursive
`Option<Box<Status>>` position. -/
inductive Status where
  | mk (id : String) (uri : String) (url : Option String) (account : Account)
       (in_reply_to_id : Option String) (in_reply_to_account_id : Option String)
       (reblog : Option Status) (content : String) (created_at : OffsetDateTime)
       (emojis : List Emoji) (replies_count : Option Nat) (reblogs_count : Nat)
       (favourites_count : Nat) (reblogged : Option Bool) (favourited : Option Bool)
       (sensitive : Bool) (spoiler_text : String) (visibility : Visibility)
       (media_attachments : List Attachment) (mentions : List Mention)
       (tags : List Tag) (card : Option Card) (application : Option Application)
       (language : Option String) (pinned : Option Bool)

/-- The `created_at` projection of a status. -/
def Status.created_at : Status → OffsetDateTime
  | .mk _ _ _ _ _ _ _ _ c _ _ _ _ _ _ _ _ _ _ _ _ _ _ _ _ => c

/-- The serialized members of a `Status`, in declaration order; `Option`
fields encode `None` as an explicit `null` (no skip attribute on `Status`)
and `created_at` goes through the fixed-format timestamp shim. -/
def statusFields : Status → List (String × Json)
  | Status.mk id uri url account irt irta reblog content created_at emojis rpc
      rbc fvc rbgd fvd sens spoil vis media ments tags card app lang pinned =>
    [("id", Json.str id), ("uri", Json.str uri),
     ("url", encodeOptField Json.str url),
     ("account", encodeAccount account),
     ("in_reply_to_id", encodeOptField Json.str irt),
     ("in_reply_to_account_id", encodeOptField Json.str irta),
     ("reblog",
       match reblog with
       | Option.none => Json.null
       | some s => Json.obj (statusFields s)),
     ("content", Json.str content),
     ("created_at", Json.str (formatIso8601 created_at)),
     ("emojis", encodeList encodeEmoji emojis),
     ("replies_count", encodeOptField encodeU64 rpc),
     ("reblogs_count", encodeU64 rbc),
     ("favourites_count", encodeU64 fvc),
     ("reblogged", encodeOptField Json.bool rbgd),
     ("favourited", encodeOptField Json.bool fvd),
     ("sensitive", Json.bool sens),
     ("spoiler_text", Json.str spoil),
     ("visibility", vis.serialize),
     ("media_attachments", encodeList encodeAttachment media),
     ("mentions", encodeList encodeMention ments),
     ("tags", encodeList encodeTag tags),
     ("card", encodeOptField encodeCard card),
     ("application", encodeOptField encodeApplication app),
     ("language", encodeOptField Json.str lang),
     ("pinned", encodeOptField Json.bool pinned)]

/-- Derived `Serialize` of `Status`. -/
def encodeStatus (v : Status) : Json := Json.obj (statusFields v)

/-- Range validity of the machine-bounded and calendar-bounded components of
a status: its timestamp is in range and its `u64` counts fit the machine
word, recursively through `reblog` — the invariant every in-memory value of
the source type holds by construction. -/
def statusValid : Status → Bool
  | Status.mk _ _ _ _ _ _ reblog _ created_at _ rpc rbc fvc _ _ _ _ _ _ _ _ _
      _ _ _ =>
    validODT created_at &&
    decide (rbc < 18446744073709551616) &&
    decide (fvc < 18446744073709551616) &&
    (match rpc with
     | Option.none => true
     | some k => decide (k < 18446744073709551616)) &&
    (match reblog with
     | Option.none => true
     | some s => statusValid s)

/-- Derived `Deserialize` of `Status`: every field is looked up by its wire
key; `Option` fields treat an absent key and an explicit `null` alike;
`reblog` recurses into the nested status object. -/
def decodeStatus (j : Json) : Except DecodeError Status :=
  match j with
  | Json.obj kvs => do
      let id ← getField decodeString kvs "id"
      let uri ← getField decodeString kvs "uri"
      let url ← decodeOptKey decodeString kvs "url"
      let account ← getField decodeAccount kvs "account"
      let in_reply_to_id ← decodeOptKey decodeString kvs "in_reply_to_id"
      let in_reply_to_account_id ← decodeOptKey decodeString kvs "in_reply_to_account_id"
      let reblog ←
        (match hr : findField kvs "reblog" with
         | Option.none => Except.ok Option.none
         | some Json.null => Except.ok Option.none
         | some sub => (decodeStatus sub).map some)
      let content ← getField decodeString kvs "content"
      let created_at ← getField decodeCreatedAt kvs "created_at"
      let emojis ← getField (decodeList decodeEmoji) kvs "emojis"
      let replies_count ← decodeOptKey decodeU64 kvs "replies_count"
      let reblogs_count ← getField decodeU64 kvs "reblogs_count"
      let favourites_count ← getField decodeU64 kvs "favourites_count"
      let reblogged ← decodeOptKey decodeBool kvs "reblogged"
      let favourited ← decodeOptKey decodeBool kvs "favourited"
      let sensitive ← getField decodeBool kvs "sensitive"
      let spoiler_text ← getField decodeString kvs "spoiler_text"
      let visibility ← getField Visibility.deserialize kvs "visibility"
      let media_attachments ← getField (decodeList decodeAttachment) kvs "media_attachments"
      let mentions ← getField (decodeList decodeMention) kvs "mentions"
      let tags ← getField (decodeList decodeTag) kvs "tags"
      let card ← decodeOptKey decodeCard kvs "card"
      let application ← decodeOptKey decodeApplication kvs "application"
      let language ← decodeOptKey decodeString kvs "language"
      let pinned ← decodeOptKey decodeBool kvs "pinned"
      Except.ok (Status.mk id uri url account in_reply_to_id in_reply_to_account_id
        reblog content created_at emojis replies_count reblogs_count
        favourites_count reblogged favourited sensitive spoiler_text visibility
        media_attachments mentions tags card application language pinned)
  | _ => Except.error (.wrongShape "object")
termination_by sizeOf j
decreasing_by
  simp only [Json.obj.sizeOf_spec]
  have hlt : ∀ (l : List (String × Json)) (key : String) (v : Json),
      findField l key = some v → sizeOf v < sizeOf l := by
    intro l
    induction l with
    | nil => intro key v h; simp [findField] at h
    | cons p rest ih =>
        intro key v h
        obtain ⟨k, w⟩ := p
        simp only [findField] at h
        by_cases hk : k = key
        · simp [hk] at h
          subst h
          simp
          omega
        · simp [hk] at h
          have := ih key v h
          simp
          omega
  have := hlt kvs "reblog" sub hr
  omega

/-- Modelled from the spec: decode of a finalized `AccountActionRequest`
payload (the source derives only `Serialize`); per §4.2 optional-omit, an
absent key and an explicit `null` both decode to no value, and the `type`
wire key carries the action discriminant (§6). -/
def AccountActionRequest.deserialize (j : Json) : Except DecodeError AccountActionRequest :=
  match j with
  | .obj kvs => do
      let action ← getField AccountAction.deserialize kvs "type"
      let report_id ← decodeOptKey (TypedId.deserialize IdKind.report) kvs "report_id"
      let warning_preset_id ←
        decodeOptKey (TypedId.deserialize IdKind.warningPreset) kvs "warning_preset_id"
      let text ← decodeOptKey decodeString kvs "text"
      let send_email_notification ← decodeOptKey decodeBool kvs "send_email_notification"
      .ok ⟨action, report_id, warning_preset_id, text, send_email_notification⟩
  | _ => .error (.wrongShape "object")

/-- A concrete timestamp used to exercise the round-trip laws on one
input. -/
def sampleTimestamp : OffsetDateTime := ⟨2022, 7, 8, 2, 41, 33, UtcOffset.z⟩

/-- A concrete status value used to exercise the round-trip laws on one
input: one optional field set, the rest empty, no reblog. -/
def sampleStatus : Status :=
  Status.mk "103270115826048975" "https://mastodon.example/statuses/1" Option.none
    ⟨⟨"14715"⟩, "trwnh", "trwnh"⟩ Option.none Option.none Option.none
    "<p>hello world</p>" sampleTimestamp [] (some 1) 6 11 (some false)
    (some true) false "" Visibility.everyone [] []
    [⟨"welcome", "https://mastodon.example/tags/welcome", [], Option.none⟩]
    Option.none (some ⟨"Web", Option.none⟩) (some "en") Option.none

/-! ## Helper lemmas -/

theorem ebind_ok {ε α β : Type} (a : α) (f : α → Except ε β) :
    (Bind.bind (Except.ok a) f : Except ε β) = f a := rfl

theorem ebindm_ok {ε α β : Type} (a : α) (f : α → Except ε β) :
    (Except.ok a : Except ε α).bind f = f a := rfl

theorem ebindm_error {ε α β : Type} (e : ε) (f : α → Except ε β) :
    (Except.error e : Except ε α).bind f = Except.error e := rfl

theorem ebind_error {ε α β : Type} (e : ε) (f : α → Except ε β) :
    (Bind.bind (Except.error e) f : Except ε β) = Except.error e := rfl

theorem obind_some {α β : Type} (a : α) (f : α → Option β) :
    (Bind.bind (some a) f : Option β) = f a := rfl

theorem obind_none {α β : Type} (f : α → Option β) :
    (Bind.bind (Option.none : Option α) f : Option β) = Option.none := rfl

theorem toDigit_digitChar_mod (n : Nat) : toDigit (digitChar (n % 10)) = some (n % 10) := by
  have h : n % 10 < 10 := Nat.mod_lt _ (by omega)
  have key : ∀ k : Fin 10, toDigit (digitChar k.val) = some k.val := by decide
  exact key ⟨n % 10, h⟩

theorem toDigit_sound {c : Char} {d : Nat} (h : toDigit c = some d) :
    digitChar d = c ∧ d < 10 := by
  unfold toDigit at h
  split at h <;> simp_all <;> subst h <;> exact ⟨rfl, by omega⟩

theorem readD2_sound {a b : Char} {n : Nat} (h : readD2 a b = some n) :
    n ≤ 99 ∧ [a, b] = pad2 n := by
  unfold readD2 at h
  cases ha : toDigit a with
  | none => rw [ha] at h; simp [obind_none] at h
  | some x =>
      rw [ha] at h
      cases hb : toDigit b with
      | none => rw [hb] at h; simp [obind_some, obind_none] at h
      | some y =>
          rw [hb] at h
          simp [obind_some] at h
          obtain ⟨hxa, hxlt⟩ := toDigit_sound ha
          obtain ⟨hyb, hylt⟩ := toDigit_sound hb
          subst h
          refine ⟨by omega, ?_⟩
          have e1 : (x * 10 + y) / 10 % 10 = x := by omega
          have e2 : (x * 10 + y) % 10 = y := by omega
          simp [pad2, e1, e2, hxa, hyb]

theorem readD4_sound {a b c d : Char} {n : Nat} (h : readD4 a b c d = some n) :
    n ≤ 9999 ∧ [a, b, c, d] = pad4 n := by
  unfold readD4 at h
  cases h1 : toDigit a with
  | none => rw [h1] at h; simp [obind_none] at h
  | some x1 =>
      rw [h1] at h
      cases h2 : toDigit b with
      | none => rw [h2] at h; simp [obind_some, obind_none] at h
      | some x2 =>
          rw [h2] at h
          cases h3 : toDigit c with
          | none => rw [h3] at h; simp [obind_some, obind_none] at h
          | some x3 =>
              rw [h3] at h
              cases h4 : toDigit d with
              | none => rw [h4] at h; simp [obind_some, obind_none] at h
              | some x4 =>
                  rw [h4] at h
                  simp [obind_some] at h
                  obtain ⟨e1, l1⟩ := toDigit_sound h1
                  obtain ⟨e2, l2⟩ := toDigit_sound h2
                  obtain ⟨e3, l3⟩ := toDigit_sound h3
                  obtain ⟨e4, l4⟩ := toDigit_sound h4
                  subst h
                  refine ⟨by omega, ?_⟩
                  have q1 : (x1 * 1000 + x2 * 100 + x3 * 10 + x4) / 1000 % 10 = x1 := by omega
                  have q2 : (x1 * 1000 + x2 * 100 + x3 * 10 + x4) / 100 % 10 = x2 := by omega
                  have q3 : (x1 * 1000 + x2 * 100 + x3 * 10 + x4) / 10 % 10 = x3 := by omega
                  have q4 : (x1 * 1000 + x2 * 100 + x3 * 10 + x4) % 10 = x4 := by omega
                  simp [pad4, q1, q2, q3, q4, e1, e2, e3, e4]

theorem readD2_pad2 {n : Nat} (h : n ≤ 99) :
    readD2 (digitChar (n / 10 % 10)) (digitChar (n % 10)) = some n := by
  simp [readD2, toDigit_digitChar_mod, obind_some]
  omega

theorem readD4_pad4 {n : Nat} (h : n ≤ 9999) :
    readD4 (digitChar (n / 1000 % 10)) (digitChar (n / 100 % 10))
      (digitChar (n / 10 % 10)) (digitChar (n % 10)) = some n := by
  simp [readD4, toDigit_digitChar_mod, obind_some]
  omega

theorem parseOffsetChars_sound {cs : List Char} {off : UtcOffset}
    (h : parseOffsetChars cs = some off) :
    validOffset off = true ∧ cs = formatOffset off := by
  unfold parseOffsetChars at h
  split at h
  · cases h
    exact ⟨rfl, rfl⟩
  · rename_i sg a b c d
    cases hneg : signOf sg with
    | none => rw [hneg] at h; simp [obind_none] at h
    | some neg =>
        rw [hneg] at h
        cases hoh : readD2 a b with
        | none => rw [hoh] at h; simp [obind_some, obind_none] at h
        | some oh =>
            rw [hoh] at h
            cases hom : readD2 c d with
            | none => rw [hom] at h; simp [obind_some, obind_none] at h
            | some om =>
                rw [hom] at h
                simp only [obind_some] at h
                by_cases hrange : oh ≤ 23 ∧ om ≤ 59
                · rw [if_pos hrange] at h
                  cases h
                  obtain ⟨_, hab⟩ := readD2_sound hoh
                  obtain ⟨_, hcd⟩ := readD2_sound hom
                  have hsg : (if neg then '-' else '+') = sg := by
                    unfold signOf at hneg
                    by_cases hp : sg = '+'
                    · rw [if_pos hp] at hneg
                      cases hneg
                      simp [hp]
                    · by_cases hm : sg = '-'
                      · rw [if_neg hp, if_pos hm] at hneg
                        cases hneg
                        simp [hm]
                      · rw [if_neg hp, if_neg hm] at hneg
                        cases hneg
                  refine ⟨by simp [validOffset]; omega, ?_⟩
                  simp [formatOffset, hsg, ← hab, ← hcd]
                · rw [if_neg hrange] at h
                  cases h
  · cases h

theorem parseOffsetChars_complete {off : UtcOffset} (hv : validOffset off = true) :
    parseOffsetChars (formatOffset off) = some off := by
  cases off with
  | z => rfl
  | numeric neg oh om =>
      simp only [validOffset, decide_eq_true_eq] at hv
      have hoh : readD2 (digitChar (oh / 10 % 10)) (digitChar (oh % 10)) = some oh :=
        readD2_pad2 (by omega)
      have hom : readD2 (digitChar (om / 10 % 10)) (digitChar (om % 10)) = some om :=
        readD2_pad2 (by omega)
      cases neg <;>
        simp [formatOffset, pad2, parseOffsetChars, signOf, hoh, hom, obind_some, hv]

theorem daysInMonth_le (y m : Nat) : daysInMonth y m ≤ 31 := by
  unfold daysInMonth
  split
  · split <;> omega
  · split <;> omega

theorem parseIso8601Chars_sound {cs : List Char} {t : OffsetDateTime}
    (h : parseIso8601Chars cs = some t) :
    validODT t = true ∧ cs = formatIso8601Chars t := by
  unfold parseIso8601Chars at h
  split at h
  · rename_i y1 y2 y3 y4 m1 m2 d1 d2 hr1 hr2 mi1 mi2 s1 s2 rest
    cases hy : readD4 y1 y2 y3 y4 with
    | none => rw [hy] at h; simp [obind_none] at h
    | some y =>
    rw [hy] at h
    cases hmo : readD2 m1 m2 with
    | none => rw [hmo] at h; simp [obind_some, obind_none] at h
    | some mo =>
    rw [hmo] at h
    cases hdy : readD2 d1 d2 with
    | none => rw [hdy] at h; simp [obind_some, obind_none] at h
    | some dy =>
    rw [hdy] at h
    cases hhh : readD2 hr1 hr2 with
    | none => rw [hhh] at h; simp [obind_some, obind_none] at h
    | some hh =>
    rw [hhh] at h
    cases hmi : readD2 mi1 mi2 with
    | none => rw [hmi] at h; simp [obind_some, obind_none] at h
    | some mi =>
    rw [hmi] at h
    cases hss : readD2 s1 s2 with
    | none => rw [hss] at h; simp [obind_some, obind_none] at h
    | some ss =>
    rw [hss] at h
    cases hoff : parseOffsetChars rest with
    | none => rw [hoff] at h; simp [obind_some, obind_none] at h
    | some off =>
    rw [hoff] at h
    simp only [obind_some] at h
    by_cases hrange : 1 ≤ mo ∧ mo ≤ 12 ∧ 1 ≤ dy ∧ dy ≤ daysInMonth y mo ∧
        hh ≤ 23 ∧ mi ≤ 59 ∧ ss ≤ 59
    · rw [if_pos hrange] at h
      cases h
      obtain ⟨hylt, hys⟩ := readD4_sound hy
      obtain ⟨_, hmos⟩ := readD2_sound hmo
      obtain ⟨_, hdys⟩ := readD2_sound hdy
      obtain ⟨_, hhhs⟩ := readD2_sound hhh
      obtain ⟨_, hmis⟩ := readD2_sound hmi
      obtain ⟨_, hsss⟩ := readD2_sound hss
      obtain ⟨hoffv, hoffs⟩ := parseOffsetChars_sound hoff
      constructor
      · simp only [validODT, hoffv, Bool.and_true, decide_eq_true_eq]
        exact ⟨by omega, by omega, by omega, by omega, by omega, by omega,
               by omega, by omega⟩
      · simp only [formatIso8601Chars, ← hys, ← hmos, ← hdys, ← hhhs, ← hmis,
          ← hsss, ← hoffs]
        simp
    · rw [if_neg hrange] at h
      cases h
  · cases h

theorem parseIso8601Chars_complete {t : OffsetDateTime} (hv : validODT t = true) :
    parseIso8601Chars (formatIso8601Chars t) = some t := by
  obtain ⟨y, mo, dy, hh, mi, ss, off⟩ := t
  simp only [validODT, Bool.and_eq_true, decide_eq_true_eq] at hv
  obtain ⟨⟨hy, hmo1, hmo2, hdy1, hdy2, hh1, hmi1, hss1⟩, hoffv⟩ := hv
  have h4 := readD4_pad4 (n := y) (by omega)
  have hmo := readD2_pad2 (n := mo) (by omega)
  have hdy := readD2_pad2 (n := dy) (by have := daysInMonth_le y mo; omega)
  have hhh := readD2_pad2 (n := hh) (by omega)
  have hmi := readD2_pad2 (n := mi) (by omega)
  have hss := readD2_pad2 (n := ss) (by omega)
  have hoff := parseOffsetChars_complete hoffv
  simp [formatIso8601Chars, pad4, pad2, parseIso8601Chars, h4, hmo, hdy, hhh,
        hmi, hss, hoff, obind_some, hmo1, hmo2, hdy1, hdy2, hh1, hmi1, hss1]

theorem parseIso8601_format {t : OffsetDateTime} (hv : validODT t = true) :
    parseIso8601 (formatIso8601 t) = some t := by
  simpa [parseIso8601, formatIso8601] using parseIso8601Chars_complete hv

theorem parseIso8601_sound {s : String} {t : OffsetDateTime}
    (h : parseIso8601 s = some t) :
    validODT t = true ∧ s = formatIso8601 t := by
  have h' : parseIso8601Chars s.data = some t := h
  obtain ⟨hv, hs⟩ := parseIso8601Chars_sound h'
  exact ⟨hv, by
    have hmk : String.mk s.data = String.mk (formatIso8601Chars t) := by rw [hs]
    simpa [formatIso8601] using hmk⟩

theorem decodeCreatedAt_format {t : OffsetDateTime} (hv : validODT t = true) :
    decodeCreatedAt (Json.str (formatIso8601 t)) = Except.ok t := by
  simp [decodeCreatedAt, parseIso8601_format hv]

theorem decodeU64_encodeU64 {n : Nat} (h : n < 18446744073709551616) :
    decodeU64 (encodeU64 n) = Except.ok n := by
  have hc : (0 : Int) ≤ (n : Int) ∧ ((n : Int) : Int) < 18446744073709551616 := by
    constructor <;> omega
  simp only [encodeU64, decodeU64, if_pos hc]
  simp

theorem decodeVisibility_rt (v : Visibility) :
    Visibility.deserialize v.serialize = Except.ok v := by
  cases v <;> rfl

theorem decodeAccount_rt (a : Account) : decodeAccount (encodeAccount a) = Except.ok a := rfl

theorem decodeCard_rt (c : Card) : decodeCard (encodeCard c) = Except.ok c := rfl

theorem decodeAttachment_rt (a : Attachment) :
    decodeAttachment (encodeAttachment a) = Except.ok a := rfl

theorem decodeMention_rt (m : Mention) : decodeMention (encodeMention m) = Except.ok m := rfl

theorem decodeEmoji_rt (e : Emoji) : decodeEmoji (encodeEmoji e) = Except.ok e := rfl

theorem decodeTagHistory_rt (h : TagHistory) :
    decodeTagHistory (encodeTagHistory h) = Except.ok h := rfl

theorem optDecodeVal_encode {α : Type} (dec : Json → Except DecodeError α)
    (enc : α → Json) (hrt : ∀ a, dec (enc a) = Except.ok a)
    (hnn : ∀ a, enc a ≠ Json.null) (o : Option α) :
    optDecodeVal dec (encodeOptField enc o) = Except.ok o := by
  cases o with
  | none => rfl
  | some a =>
      have h := hrt a
      cases henc : enc a
      · exact absurd henc (hnn a)
      all_goals rw [henc] at h
      all_goals simp [encodeOptField, henc, optDecodeVal, h, Except.map]

theorem optDecodeVal_str (o : Option String) :
    optDecodeVal decodeString (encodeOptField Json.str o) = Except.ok o :=
  optDecodeVal_encode decodeString Json.str (fun _ => rfl)
    (fun a h => by simp at h) o

theorem optDecodeVal_bool (o : Option Bool) :
    optDecodeVal decodeBool (encodeOptField Json.bool o) = Except.ok o :=
  optDecodeVal_encode decodeBool Json.bool (fun _ => rfl)
    (fun a h => by simp at h) o

theorem optDecodeVal_u64 {o : Option Nat}
    (h : ∀ k, o = some k → k < 18446744073709551616) :
    optDecodeVal decodeU64 (encodeOptField encodeU64 o) = Except.ok o := by
  cases o with
  | none => rfl
  | some k =>
      have hk := decodeU64_encodeU64 (h k rfl)
      calc optDecodeVal decodeU64 (encodeOptField encodeU64 (some k))
          = (decodeU64 (encodeU64 k)).map some := rfl
        _ = (Except.ok k).map some := by rw [hk]
        _ = Except.ok (some k) := rfl

theorem optDecodeVal_card (o : Option Card) :
    optDecodeVal decodeCard (encodeOptField encodeCard o) = Except.ok o :=
  optDecodeVal_encode decodeCard encodeCard decodeCard_rt
    (fun a h => by simp [encodeCard] at h) o

theorem decodeApplication_rt (a : Application) :
    decodeApplication (encodeApplication a) = Except.ok a := by
  obtain ⟨nm, ws⟩ := a
  simp [encodeApplication, decodeApplication, getField, reqField, findField,
        decodeOptKey, decodeString, optDecodeVal_str, ebind_ok, ebindm_ok]

theorem optDecodeVal_application (o : Option Application) :
    optDecodeVal decodeApplication (encodeOptField encodeApplication o) = Except.ok o :=
  optDecodeVal_encode decodeApplication encodeApplication decodeApplication_rt
    (fun a h => by simp [encodeApplication] at h) o

theorem decodeElems_map {α : Type} (dec : Json → Except DecodeError α)
    (enc : α → Json) (hrt : ∀ a, dec (enc a) = Except.ok a) :
    ∀ xs : List α, decodeElems dec (xs.map enc) = Except.ok xs := by
  intro xs
  induction xs with
  | nil => rfl
  | cons x rest ih => simp [List.map, decodeElems, hrt, ih, ebind_ok]

theorem decodeList_encodeList {α : Type} (dec : Json → Except DecodeError α)
    (enc : α → Json) (hrt : ∀ a, dec (enc a) = Except.ok a) (xs : List α) :
    decodeList dec (encodeList enc xs) = Except.ok xs := by
  simp [encodeList, decodeList, decodeElems_map dec enc hrt]

theorem decodeList_emoji (xs : List Emoji) :
    decodeList decodeEmoji (encodeList encodeEmoji xs) = Except.ok xs :=
  decodeList_encodeList decodeEmoji encodeEmoji decodeEmoji_rt xs

theorem decodeList_mention (xs : List Mention) :
    decodeList decodeMention (encodeList encodeMention xs) = Except.ok xs :=
  decodeList_encodeList decodeMention encodeMention decodeMention_rt xs

theorem decodeList_attachment (xs : List Attachment) :
    decodeList decodeAttachment (encodeList encodeAttachment xs) = Except.ok xs :=
  decodeList_encodeList decodeAttachment encodeAttachment decodeAttachment_rt xs

theorem decodeList_tagHistory (xs : List TagHistory) :
    decodeList decodeTagHistory (encodeList encodeTagHistory xs) = Except.ok xs :=
  decodeList_encodeList decodeTagHistory encodeTagHistory decodeTagHistory_rt xs

theorem decodeTag_rt (t : Tag) : decodeTag (encodeTag t) = Except.ok t := by
  obtain ⟨nm, url, hist, foll⟩ := t
  simp [encodeTag, decodeTag, getField, reqField, findField, decodeString,
        decodeOptKey, optDecodeVal_bool, decodeList_tagHistory, ebind_ok,
        ebindm_ok]

theorem decodeList_tag (xs : List Tag) :
    decodeList decodeTag (encodeList encodeTag xs) = Except.ok xs :=
  decodeList_encodeList decodeTag encodeTag decodeTag_rt xs

theorem decodeStatus_obj_spec (kvs : List (String × Json))
    (id uri content spoil : String) (url irt irta lang : Option String)
    (account : Account) (reblog : Option Status) (created_at : OffsetDateTime)
    (emojis : List Emoji) (rpc : Option Nat) (rbc fvc : Nat)
    (rbgd fvd pinned : Option Bool) (sens : Bool) (vis : Visibility)
    (media : List Attachment) (ments : List Mention) (tags : List Tag)
    (card : Option Card) (app : Option Application)
    (h1 : findField kvs "id" = some (Json.str id))
    (h2 : findField kvs "uri" = some (Json.str uri))
    (h3 : findField kvs "url" = some (encodeOptField Json.str url))
    (h4 : findField kvs "account" = some (encodeAccount account))
    (h5 : findField kvs "in_reply_to_id" = some (encodeOptField Json.str irt))
    (h6 : findField kvs "in_reply_to_account_id" = some (encodeOptField Json.str irta))
    (h7 : findField kvs "reblog" =
      some (encodeOptField (fun s => Json.obj (statusFields s)) reblog))
    (h7d : ∀ s, reblog = some s →
      decodeStatus (Json.obj (statusFields s)) = Except.ok s)
    (h8 : findField kvs "content" = some (Json.str content))
    (h9 : findField kvs "created_at" = some (Json.str (formatIso8601 created_at)))
    (hts : validODT created_at = true)
    (h10 : findField kvs "emojis" = some (encodeList encodeEmoji emojis))
    (h11 : findField kvs "replies_count" = some (encodeOptField encodeU64 rpc))
    (hrpc : ∀ k, rpc = some k → k < 18446744073709551616)
    (h12 : findField kvs "reblogs_count" = some (encodeU64 rbc))
    (hrbc : rbc < 18446744073709551616)
    (h13 : findField kvs "favourites_count" = some (encodeU64 fvc))
    (hfvc : fvc < 18446744073709551616)
    (h14 : findField kvs "reblogged" = some (encodeOptField Json.bool rbgd))
    (h15 : findField kvs "favourited" = some (encodeOptField Json.bool fvd))
    (h16 : findField kvs "sensitive" = some (Json.bool sens))
    (h17 : findField kvs "spoiler_text" = some (Json.str spoil))
    (h18 : findField kvs "visibility" = some vis.serialize)
    (h19 : findField kvs "media_attachments" = some (encodeList encodeAttachment media))
    (h20 : findField kvs "mentions" = some (encodeList encodeMention ments))
    (h21 : findField kvs "tags" = some (encodeList encodeTag tags))
    (h22 : findField kvs "card" = some (encodeOptField encodeCard card))
    (h23 : findField kvs "application" = some (encodeOptField encodeApplication app))
    (h24 : findField kvs "language" = some (encodeOptField Json.str lang))
    (h25 : findField kvs "pinned" = some (encodeOptField Json.bool pinned)) :
    decodeStatus (Json.obj kvs) = Except.ok (Status.mk id uri url account irt
      irta reblog content created_at emojis rpc rbc fvc rbgd fvd sens spoil vis
      media ments tags card app lang pinned) := by
  have f1 : getField decodeString kvs "id" = Except.ok id := by simp [getField, reqField, ebindm_ok, h1, decodeString]
  have f2 : getField decodeString kvs "uri" = Except.ok uri := by simp [getField, reqField, ebindm_ok, h2, decodeString]
  have f3 : decodeOptKey decodeString kvs "url" = Except.ok url := by simp [decodeOptKey, h3, optDecodeVal_str]
  have f4 : getField decodeAccount kvs "account" = Except.ok account := by simp [getField, reqField, ebindm_ok, h4, decodeAccount_rt]
  have f5 : decodeOptKey decodeString kvs "in_reply_to_id" = Except.ok irt := by simp [decodeOptKey, h5, optDecodeVal_str]
  have f6 : decodeOptKey decodeString kvs "in_reply_to_account_id" = Except.ok irta := by simp [decodeOptKey, h6, optDecodeVal_str]
  have f8 : getField decodeString kvs "content" = Except.ok content := by simp [getField, reqField, ebindm_ok, h8, decodeString]
  have f9 : getField decodeCreatedAt kvs "created_at" = Except.ok created_at := by simp [getField, reqField, ebindm_ok, h9, decodeCreatedAt_format hts]
  have f10 : getField (decodeList decodeEmoji) kvs "emojis" = Except.ok emojis := by simp [getField, reqField, ebindm_ok, h10, decodeList_emoji]
  have f11 : decodeOptKey decodeU64 kvs "replies_count" = Except.ok rpc := by simp [decodeOptKey, h11, optDecodeVal_u64 hrpc]
  have f12 : getField decodeU64 kvs "reblogs_count" = Except.ok rbc := by
    rw [getField, reqField, h12, ebindm_ok]
    exact decodeU64_encodeU64 hrbc
  have f13 : getField decodeU64 kvs "favourites_count" = Except.ok fvc := by
    rw [getField, reqField, h13, ebindm_ok]
    exact decodeU64_encodeU64 hfvc
  have f14 : decodeOptKey decodeBool kvs "reblogged" = Except.ok rbgd := by simp [decodeOptKey, h14, optDecodeVal_bool]
  have f15 : decodeOptKey decodeBool kvs "favourited" = Except.ok fvd := by simp [decodeOptKey, h15, optDecodeVal_bool]
  have f16 : getField decodeBool kvs "sensitive" = Except.ok sens := by simp [getField, reqField, ebindm_ok, h16, decodeBool]
  have f17 : getField decodeString kvs "spoiler_text" = Except.ok spoil := by simp [getField, reqField, ebindm_ok, h17, decodeString]
  have f18 : getField Visibility.deserialize kvs "visibility" = Except.ok vis := by simp [getField, reqField, ebindm_ok, h18, decodeVisibility_rt]
  have f19 : getField (decodeList decodeAttachment) kvs "media_attachments" = Except.ok media := by simp [getField, reqField, ebindm_ok, h19, decodeList_attachment]
  have f20 : getField (decodeList decodeMention) kvs "mentions" = Except.ok ments := by simp [getField, reqField, ebindm_ok, h20, decodeList_mention]
  have f21 : getField (decodeList decodeTag) kvs "tags" = Except.ok tags := by simp [getField, reqField, ebindm_ok, h21, decodeList_tag]
  have f22 : decodeOptKey decodeCard kvs "card" = Except.ok card := by simp [decodeOptKey, h22, optDecodeVal_card]
  have f23 : decodeOptKey decodeApplication kvs "application" = Except.ok app := by simp [decodeOptKey, h23, optDecodeVal_application]
  have f24 : decodeOptKey decodeString kvs "language" = Except.ok lang := by simp [decodeOptKey, h24, optDecodeVal_str]
  have f25 : decodeOptKey decodeBool kvs "pinned" = Except.ok pinned := by simp [decodeOptKey, h25, optDecodeVal_bool]
  rw [decodeStatus.eq_def]
  simp only [f1, ebind_ok]
  simp only [f2, ebind_ok]
  simp only [f3, ebind_ok]
  simp only [f4, ebind_ok]
  simp only [f5, ebind_ok]
  simp only [f6, ebind_ok]
  split
  · rename_i heq
    rw [h7] at heq
    simp at heq
  · rename_i heq
    rw [h7] at heq
    cases reblog with
    | none =>
        simp only [ebind_ok]
        simp only [f8, ebind_ok]
        simp only [f9, ebind_ok]
        simp only [f10, ebind_ok]
        simp only [f11, ebind_ok]
        simp only [f12, ebind_ok]
        simp only [f13, ebind_ok]
        simp only [f14, ebind_ok]
        simp only [f15, ebind_ok]
        simp only [f16, ebind_ok]
        simp only [f17, ebind_ok]
        simp only [f18, ebind_ok]
        simp only [f19, ebind_ok]
        simp only [f20, ebind_ok]
        simp only [f21, ebind_ok]
        simp only [f22, ebind_ok]
        simp only [f23, ebind_ok]
        simp only [f24, ebind_ok]
        simp only [f25, ebind_ok]
    | some s => simp only [encodeOptField] at heq; simp at heq
  · rename_i sub hne heq
    rw [h7] at heq
    cases reblog with
    | none =>
        simp only [encodeOptField] at heq
        rw [Option.some_inj] at heq
        exact absurd heq.symm hne
    | some s =>
        simp only [encodeOptField] at heq
        rw [Option.some_inj] at heq
        subst heq
        have hsub := h7d s rfl
        simp only [hsub, Except.map, ebind_ok]
        simp only [f8, ebind_ok]
        simp only [f9, ebind_ok]
        simp only [f10, ebind_ok]
        simp only [f11, ebind_ok]
        simp only [f12, ebind_ok]
        simp only [f13, ebind_ok]
        simp only [f14, ebind_ok]
        simp only [f15, ebind_ok]
        simp only [f16, ebind_ok]
        simp only [f17, ebind_ok]
        simp only [f18, ebind_ok]
        simp only [f19, ebind_ok]
        simp only [f20, ebind_ok]
        simp only [f21, ebind_ok]
        simp only [f22, ebind_ok]
        simp only [f23, ebind_ok]
        simp only [f24, ebind_ok]
        simp only [f25, ebind_ok]

theorem decodeStatus_encodeStatus_aux :
    ∀ (n : Nat) (v : Status), sizeOf v ≤ n → statusValid v = true →
      decodeStatus (encodeStatus v) = Except.ok v := by
  intro n
  induction n with
  | zero =>
      intro v hsz _
      exact absurd hsz (by cases v; simp)
  | succ n ih =>
      intro v hsz hval
      cases v with
      | mk id uri url account irt irta reblog content created_at emojis rpc rbc
          fvc rbgd fvd sens spoil vis media ments tags card app lang pinned =>
        rw [statusValid.eq_def] at hval
        simp only [Bool.and_eq_true, decide_eq_true_eq] at hval
        obtain ⟨⟨⟨⟨hts, hrbc⟩, hfvc⟩, hrpc⟩, hrb⟩ := hval
        have hrpc' : ∀ k, rpc = some k → k < 18446744073709551616 := by
          intro k hk
          rw [hk] at hrpc
          simpa using hrpc
        have h7d : ∀ s, reblog = some s →
            decodeStatus (Json.obj (statusFields s)) = Except.ok s := by
          intro s hs
          subst hs
          have hsub : statusValid s = true := by simpa using hrb
          have hsz' : sizeOf s ≤ n := by
            simp only [Status.mk.sizeOf_spec, Option.some.sizeOf_spec] at hsz
            omega
          have hrec := ih s hsz' hsub
          simpa [encodeStatus] using hrec
        simp only [encodeStatus]
        apply decodeStatus_obj_spec
        case h7d => exact h7d
        case hts => exact hts
        case hrpc => exact hrpc'
        case hrbc => exact hrbc
        case hfvc => exact hfvc
        all_goals rw [statusFields.eq_def]
        all_goals cases reblog <;> simp [findField, encodeOptField]

theorem decodeStatus_encodeStatus {v : Status} (hval : statusValid v = true) :
    decodeStatus (encodeStatus v) = Except.ok v :=
  decodeStatus_encodeStatus_aux (sizeOf v) v (Nat.le_refl _) hval

theorem findField_append (xs ys : List (String × Json)) (key : String) :
    findField (xs ++ ys) key =
      (match findField xs key with
       | some v => some v
       | Option.none => findField ys key) := by
  induction xs with
  | nil => rfl
  | cons p rest ih =>
      obtain ⟨k, v⟩ := p
      by_cases hk : k = key
      · simp [findField, hk]
      · simp [findField, hk, ih]

theorem findField_optEntry_ne {α : Type} (key key' : String) (enc : α → Json)
    (o : Option α) (h : key' ≠ key) :
    findField (optEntry key' enc o) key = Option.none := by
  cases o <;> simp [optEntry, findField, h]

theorem findField_optEntry_absent {α : Type} (key key' : String) (enc : α → Json) :
    findField (optEntry key enc Option.none) key' = Option.none := rfl

theorem mem_optEntry {α : Type} {key : String} {enc : α → Json} {o : Option α}
    {p : String × Json} (hp : p ∈ optEntry key enc o) :
    ∃ x, o = some x ∧ p = (key, enc x) := by
  cases o with
  | none => simp [optEntry] at hp
  | some x =>
      simp [optEntry] at hp
      exact ⟨x, rfl, by simp [hp]⟩

theorem findField_not_null {kvs : List (String × Json)} {key : String}
    (h : ∀ p ∈ kvs, p.2 ≠ Json.null) : findField kvs key ≠ some Json.null := by
  induction kvs with
  | nil => simp [findField]
  | cons p rest ih =>
      obtain ⟨k, v⟩ := p
      by_cases hk : k = key
      · simp only [findField, hk, if_pos rfl]
        intro heq
        exact (h (k, v) (by simp)) (by injection heq)
      · simp only [findField, if_neg hk]
        exact ih (fun q hq => h q (List.mem_cons_of_mem _ hq))

theorem serializeFields_vals_not_null (r : AccountActionRequest) :
    ∀ p ∈ r.serializeFields, p.2 ≠ Json.null := by
  obtain ⟨a, rid, wpid, tx, sen⟩ := r
  rcases rid with _ | x1 <;> rcases wpid with _ | x2 <;> rcases tx with _ | x3 <;>
    rcases sen with _ | x4 <;>
    simp [AccountActionRequest.serializeFields, optEntry,
      AccountAction.serialize, TypedId.serialize]

theorem applySetters_action : ∀ (ops : List SetterCall)
    (b : AccountActionRequestBuilder), (applySetters b ops).action = b.action := by
  intro ops
  induction ops with
  | nil => intro b; rfl
  | cons op rest ih =>
      intro b
      have hstep : applySetters b (op :: rest) = applySetters (applySetter b op) rest := rfl
      rw [hstep, ih]
      cases op <;> rfl

/-! ## Claim theorems -/

/-- C1: the claim says finalize on a builder with a missing required field
returns a `BuildError` recoverably and never aborts the process. On the code
of `AccountActionRequestBuilder::build` this fails: the generated `try_build`
does return the builder error, but the public `build` calls `.expect(...)` on
it and aborts the process with the message below. The theorem evaluates the
code at the failing input (a builder whose required `action` field was never
set). -/
theorem c1_build_aborts_on_missing_required_field :
    AccountActionRequestBuilder.build AccountActionRequestBuilder.createEmpty =
      BuildOutcome.panicked "One or more required fields are missing!" ∧
    AccountActionRequestBuilder.tryBuild AccountActionRequestBuilder.createEmpty =
      Except.error (BuildError.missingRequired "action") :=
  ⟨rfl, rfl⟩

/-- C2: building `AccountActionRequest::builder(Suspend)` with `report_id`
set to `"666"` and `text` set to `"you know what you did"` and encoding the
result produces exactly the JSON text
`{"type":"suspend","report_id":"666","text":"you know what you did"}` — the
unset optional keys are absent and the keys appear in declaration order. -/
theorem c2_suspend_request_exact_serialization :
    (AccountActionRequestBuilder.build
      (((AccountActionRequest.builder AccountAction.suspend).set_report_id
          (TypedId.new IdKind.report "666")).set_text
        "you know what you did")).serialized =
      some "\x7b\"type\":\"suspend\",\"report_id\":\"666\",\"text\":\"you know what you did\"\x7d" :=
  rfl

/-- C3: for every finalized `AccountActionRequest` payload and each of its
four optional fields, an unset field contributes no key at all to the encoded
object (and no key of the encoding ever holds an explicit `null`); on decode,
an object with the optional keys absent and an object with them explicitly
`null` both decode to the fields holding no value. -/
theorem c3_optional_omit :
    ∀ r : AccountActionRequest,
      (r.report_id = Option.none →
        findField r.serializeFields "report_id" = Option.none) ∧
      (r.warning_preset_id = Option.none →
        findField r.serializeFields "warning_preset_id" = Option.none) ∧
      (r.text = Option.none → findField r.serializeFields "text" = Option.none) ∧
      (r.send_email_notification = Option.none →
        findField r.serializeFields "send_email_notification" = Option.none) ∧
      (∀ key : String, findField r.serializeFields key ≠ some Json.null) ∧
      (∀ a : AccountAction,
        AccountActionRequest.deserialize
            (Json.obj [("type", AccountAction.serialize a)]) =
          Except.ok ⟨a, Option.none, Option.none, Option.none, Option.none⟩) ∧
      (∀ a : AccountAction,
        AccountActionRequest.deserialize (Json.obj
            [("type", AccountAction.serialize a), ("report_id", Json.null),
             ("warning_preset_id", Json.null), ("text", Json.null),
             ("send_email_notification", Json.null)]) =
          Except.ok ⟨a, Option.none, Option.none, Option.none, Option.none⟩) := by
  intro r
  obtain ⟨a, rid, wpid, tx, sen⟩ := r
  refine ⟨?_, ?_, ?_, ?_, ?_, ?_, ?_⟩
  · intro h
    subst h
    simp [AccountActionRequest.serializeFields, findField, findField_append,
      findField_optEntry_absent, findField_optEntry_ne]
  · intro h
    subst h
    simp [AccountActionRequest.serializeFields, findField, findField_append,
      findField_optEntry_absent, findField_optEntry_ne]
  · intro h
    subst h
    simp [AccountActionRequest.serializeFields, findField, findField_append,
      findField_optEntry_absent, findField_optEntry_ne]
  · intro h
    subst h
    simp [AccountActionRequest.serializeFields, findField, findField_append,
      findField_optEntry_absent, findField_optEntry_ne]
  · intro key
    exact findField_not_null (serializeFields_vals_not_null _)
  · intro b
    cases b <;> rfl
  · intro b
    cases b <;> rfl

/-- Closed witness for C3 at the all-unset suspension request: every optional
key is absent from the encoding. -/
theorem c3_optional_omit_witness :
    findField (AccountActionRequest.serializeFields
      ⟨AccountAction.suspend, Option.none, Option.none, Option.none, Option.none⟩)
      "report_id" = Option.none ∧
    findField (AccountActionRequest.serializeFields
      ⟨AccountAction.suspend, Option.none, Option.none, Option.none, Option.none⟩)
      "warning_preset_id" = Option.none ∧
    findField (AccountActionRequest.serializeFields
      ⟨AccountAction.suspend, Option.none, Option.none, Option.none, Option.none⟩)
      "text" = Option.none ∧
    findField (AccountActionRequest.serializeFields
      ⟨AccountAction.suspend, Option.none, Option.none, Option.none, Option.none⟩)
      "send_email_notification" = Option.none :=
  ⟨(c3_optional_omit _).1 rfl, (c3_optional_omit _).2.1 rfl,
   (c3_optional_omit _).2.2.1 rfl, (c3_optional_omit _).2.2.2.1 rfl⟩

/-- C4: `AccountAction` encodes each variant to its lower-snake-case wire
token as a JSON string (never numerically), decode accepts exactly the five
tokens `none`, `sensitive`, `disable`, `silence`, `suspend`, mapping each to
its variant as the exact inverse of encode, and any token outside the set
yields a `DecodeError`, never a default variant. -/
theorem c4_account_action_closed_enum :
    (∀ a : AccountAction, AccountAction.serialize a = Json.str a.toWire) ∧
    (AccountAction.toWire AccountAction.none = "none" ∧
     AccountAction.toWire AccountAction.sensitive = "sensitive" ∧
     AccountAction.toWire AccountAction.disable = "disable" ∧
     AccountAction.toWire AccountAction.silence = "silence" ∧
     AccountAction.toWire AccountAction.suspend = "suspend") ∧
    (∀ a : AccountAction,
      AccountAction.deserialize (Json.str a.toWire) = Except.ok a) ∧
    (∀ s : String, s ∉ ["none", "sensitive", "disable", "silence", "suspend"] →
      AccountAction.deserialize (Json.str s) =
        Except.error (DecodeError.unknownVariant s)) := by
  refine ⟨fun a => rfl, ⟨rfl, rfl, rfl, rfl, rfl⟩, fun a => by cases a <;> rfl, ?_⟩
  intro s hs
  simp only [List.mem_cons, List.not_mem_nil, or_false, not_or] at hs
  obtain ⟨n1, n2, n3, n4, n5⟩ := hs
  simp [AccountAction.deserialize, AccountAction.ofWire, n1, n2, n3, n4, n5]

/-- Closed witness for C4: the out-of-vocabulary token `destroy` is refused
with an unknown-variant decode error. -/
theorem c4_account_action_closed_enum_witness :
    ("destroy" ∉ ["none", "sensitive", "disable", "silence", "suspend"]) ∧
    AccountAction.deserialize (Json.str "destroy") =
      Except.error (DecodeError.unknownVariant "destroy") :=
  ⟨by decide, c4_account_action_closed_enum.2.2.2 "destroy" (by decide)⟩

/-- C5: for every in-memory `Status` value whose machine-bounded components
are in range (the invariant the source type carries by construction, as
`statusValid` states it), decoding the result of encoding it succeeds and
yields an equal value; unset optional fields stay unset through the round
trip because decode maps the emitted `null` back to no value. -/
theorem c5_status_roundtrip (v : Status) (hval : statusValid v = true) :
    decodeStatus (encodeStatus v) = Except.ok v :=
  decodeStatus_encodeStatus hval

/-- Closed witness for C5 at a concrete status value. -/
theorem c5_status_roundtrip_witness :
    statusValid sampleStatus = true ∧
    decodeStatus (encodeStatus sampleStatus) = Except.ok sampleStatus :=
  ⟨by decide, c5_status_roundtrip sampleStatus (by decide)⟩

/-- C6: for the collection-typed field carrying the default-on-absence shim
(`Tag.history`, `#[serde(default = "Vec::new")]`), decoding a wire object
from which the `history` key is absent succeeds and yields the empty list for
that field rather than a decode failure. -/
theorem c6_tag_history_default_on_absence :
    ∀ (name url : String),
      decodeTag (Json.obj [("name", Json.str name), ("url", Json.str url)]) =
        Except.ok ⟨name, url, [], Option.none⟩ :=
  fun _ _ => rfl

/-- C7: `Status.created_at` is encoded through one single fixed textual
timestamp standard carrying date, time and UTC offset: the encoder always
emits `formatIso8601`, the parser accepts exactly the formatter's language
(parse after format succeeds, and any parse success identifies the input with
a formatted timestamp), and any textual input the parser rejects makes the
field decoder fail with a timestamp-format `DecodeError` rather than succeed
or default. -/
theorem c7_created_at_fixed_timestamp_format :
    (∀ v : Status, findField (statusFields v) "created_at" =
       some (Json.str (formatIso8601 v.created_at))) ∧
    (∀ t : OffsetDateTime, validODT t = true →
       parseIso8601 (formatIso8601 t) = some t) ∧
    (∀ (s : String) (t : OffsetDateTime), parseIso8601 s = some t →
       validODT t = true ∧ s = formatIso8601 t) ∧
    (∀ s : String, parseIso8601 s = Option.none →
       decodeCreatedAt (Json.str s) =
         Except.error (DecodeError.timestampFormat s)) := by
  refine ⟨?_, fun t ht => parseIso8601_format ht,
          fun s t h => parseIso8601_sound h, ?_⟩
  · intro v
    cases v with
    | mk id uri url account irt irta reblog content created_at emojis rpc rbc
        fvc rbgd fvd sens spoil vis media ments tags card app lang pinned =>
      rw [statusFields.eq_def]
      simp [findField, Status.created_at]
  · intro s hs
    simp [decodeCreatedAt, hs]

/-- Closed witness for C7: the format round-trips on a concrete in-range
timestamp, a non-conforming text is rejected with the format error, and a
parsed text is identified with its formatted value. -/
theorem c7_created_at_fixed_timestamp_format_witness :
    (validODT ⟨2022, 7, 8, 2, 41, 33, UtcOffset.z⟩ = true ∧
     parseIso8601 (formatIso8601 ⟨2022, 7, 8, 2, 41, 33, UtcOffset.z⟩) =
       some ⟨2022, 7, 8, 2, 41, 33, UtcOffset.z⟩) ∧
    (parseIso8601 "July 8th 2022" = Option.none ∧
     decodeCreatedAt (Json.str "July 8th 2022") =
       Except.error (DecodeError.timestampFormat "July 8th 2022")) ∧
    (parseIso8601 "2022-07-08T02:41:33+05:30" =
       some ⟨2022, 7, 8, 2, 41, 33, UtcOffset.numeric false 5 30⟩ ∧
     validODT ⟨2022, 7, 8, 2, 41, 33, UtcOffset.numeric false 5 30⟩ = true ∧
     "2022-07-08T02:41:33+05:30" =
       formatIso8601 ⟨2022, 7, 8, 2, 41, 33, UtcOffset.numeric false 5 30⟩) :=
  ⟨⟨by decide, c7_created_at_fixed_timestamp_format.2.1 _ (by decide)⟩,
   ⟨by decide, c7_created_at_fixed_timestamp_format.2.2.2 _ (by decide)⟩,
   ⟨by decide, c7_created_at_fixed_timestamp_format.2.2.1 _ _ (by decide)⟩⟩

/-- C8: two typed identifiers of the same resource kind constructed from the
same raw string are equal under the kind-aware equality; construction never
fails for well-formed non-empty input (it is a total function preserving the
raw string); and identifiers of two distinct kinds constructed from the
identical raw string are never equal under the kind-aware equality operator
(the kind parameter also keeps them apart as Lean types, the embedding of the
compile-time separation). -/
theorem c8_typed_identifier_kind_safety :
    (∀ (k : IdKind) (s : String),
       TypedId.keq (TypedId.new k s) (TypedId.new k s) = true) ∧
    (∀ (k : IdKind) (s : String), s ≠ "" → (TypedId.new k s).raw = s) ∧
    (∀ (k₁ k₂ : IdKind) (s : String), k₁ ≠ k₂ →
       TypedId.keq (TypedId.new k₁ s) (TypedId.new k₂ s) = false) := by
  refine ⟨fun k s => by simp [TypedId.keq, TypedId.new], fun k s _ => rfl, ?_⟩
  intro k1 k2 s hne
  simp [TypedId.keq, TypedId.new, hne]

/-- Closed witness for C8 with the account and report kinds on the raw string
`123`. -/
theorem c8_typed_identifier_kind_safety_witness :
    ("123" ≠ "" ∧ (TypedId.new IdKind.account "123").raw = "123") ∧
    (IdKind.account ≠ IdKind.report ∧
     TypedId.keq (TypedId.new IdKind.account "123")
       (TypedId.new IdKind.report "123") = false) :=
  ⟨⟨by decide, c8_typed_identifier_kind_safety.2.1 IdKind.account "123" (by decide)⟩,
   ⟨by decide,
    c8_typed_identifier_kind_safety.2.2 IdKind.account IdKind.report "123" (by decide)⟩⟩

/-- C9: typed identifiers and the tolerant string scalar both decode from a
JSON string token and from a JSON number token, normalizing both shapes to
the same in-memory string form (so decoding `"42"` and decoding `42` yield
identical values), and encode always emits a JSON string. -/
theorem c9_tolerant_scalar_decode :
    (∀ (k : IdKind) (s : String),
       TypedId.deserialize k (Json.str s) = Except.ok ⟨s⟩) ∧
    (∀ (k : IdKind) (i : Int),
       TypedId.deserialize k (Json.num i) = Except.ok ⟨i.repr⟩) ∧
    (∀ k : IdKind,
       TypedId.deserialize k (Json.num 42) = TypedId.deserialize k (Json.str "42")) ∧
    (∀ (k : IdKind) (id : TypedId k), TypedId.serialize id = Json.str id.raw) ∧
    (∀ s : String, tolerantStringDecode (Json.str s) = Except.ok s) ∧
    (∀ i : Int, tolerantStringDecode (Json.num i) = Except.ok i.repr) ∧
    (tolerantStringDecode (Json.num 42) = tolerantStringDecode (Json.str "42")) ∧
    (∀ s : String, tolerantStringEncode s = Json.str s) :=
  ⟨fun _ _ => rfl, fun _ _ => rfl, fun _ => rfl, fun _ _ => rfl,
   fun _ => rfl, fun _ => rfl, rfl, fun _ => rfl⟩

/-- C10: a builder obtained from `AccountActionRequest::builder(a)` has its
required `action` field seeded with `a`, and no sequence of optional-field
setter calls unsets it, so `build()` on such a builder never reaches the
panic branch: it returns a request whose `action` equals `a`. -/
theorem c10_builder_always_buildable :
    ∀ (a : AccountAction) (ops : List SetterCall),
      ∃ r : AccountActionRequest,
        AccountActionRequestBuilder.build
          (applySetters (AccountActionRequest.builder a) ops) =
            BuildOutcome.ok r ∧ r.action = a := by
  intro a ops
  have hact : (applySetters (AccountActionRequest.builder a) ops).action = some a := by
    rw [applySetters_action]
    rfl
  have ht : (applySetters (AccountActionRequest.builder a) ops).tryBuild =
      Except.ok ⟨a,
        ((applySetters (AccountActionRequest.builder a) ops).report_id).getD Option.none,
        ((applySetters (AccountActionRequest.builder a) ops).warning_preset_id).getD Option.none,
        ((applySetters (AccountActionRequest.builder a) ops).text).getD Option.none,
        ((applySetters (AccountActionRequest.builder a) ops).send_email_notification).getD Option.none⟩ := by
    unfold AccountActionRequestBuilder.tryBuild
    rw [hact]
  refine ⟨⟨a,
    ((applySetters (AccountActionRequest.builder a) ops).report_id).getD Option.none,
    ((applySetters (AccountActionRequest.builder a) ops).warning_preset_id).getD Option.none,
    ((applySetters (AccountActionRequest.builder a) ops).text).getD Option.none,
    ((applySetters (AccountActionRequest.builder a) ops).send_email_notification).getD
      Option.none⟩, ?_, rfl⟩
  unfold AccountActionRequestBuilder.build
  rw [ht]
